import Mathlib

/-!
Shallow embedding of `src/loops.py` from the running-paths_generator
repository, and proofs about it.

Modelling choices:
* `Node` is `ℕ` (node ids are opaque; equality/hash only).
* Distances and thresholds are `ℚ` (Python floats).
* The geodesic distance of `geopy` (an external collaborator) is an
  abstract parameter `geo : Coord → Coord → ℚ`, applied to the node
  coordinates looked up in the graph.
* The `networkx` shortest-path oracle is an abstract parameter
  `sp : Node → Node → Option (List Node)`; `none` models the
  `NetworkXNoPath` exception caught at line 58 of `loops.py`.
* The pseudorandom source behind `np.random.choice(nodes, 2)` is an
  explicit tape: a list of pairs of natural numbers, each reduced modulo
  the node count and used as an index into the node list.  One tape entry
  is one iteration of the attempt loop of `find_loops`
  (`num_attempts = tape.length`).  `np.random.choice` samples with
  replacement, so the two indices of one entry are independent.
* The mutable set `random_nodes` and the accumulating list `loops` of
  `find_loops` become the explicit `SamplerState` threaded through a fold.
-/

namespace RunningPaths

abbrev Node := ℕ

abbrev Coord := ℚ × ℚ

/-- The graph collaborator: its node list (`list(G.nodes)`) and the
per-node coordinate lookup (`(G.nodes[n]['y'], G.nodes[n]['x'])`). -/
structure Graph where
  nodes : List Node
  coord : Node → Coord

/-- `path_length_km(G, path)` from `loops.py`: sums the geodesic distance
over each consecutive node pair of the path; the empty and single-node
paths give `0.0` (the Python loop body never runs). -/
def path_length_km (geo : Coord → Coord → ℚ) (G : Graph) : List Node → ℚ
  | n1 :: n2 :: rest =>
      geo (G.coord n1) (G.coord n2) + path_length_km geo G (n2 :: rest)
  | _ => 0

/-- One uniform draw of `np.random.choice(nodes, 2)`: the raw random
number `i` indexes the node list (reduced modulo its length). -/
def sample (nodes : List Node) (i : ℕ) : Node :=
  nodes.getD (i % nodes.length) 0

/-- The pair `(node1, node2)` drawn at line 28 of `loops.py`; the two
draws are independent (sampling is with replacement). -/
def sampled_pair (G : Graph) (r : ℕ × ℕ) : Node × Node :=
  (sample G.nodes r.1, sample G.nodes r.2)

/-- `full_path = path1 + path2[1:] + path3[1:]` (line 43 of `loops.py`). -/
def full_path_of_legs (path1 path2 path3 : List Node) : List Node :=
  path1 ++ path2.tail ++ path3.tail

/-- Line 49 of `loops.py`: the attempt is skipped when
`len(set(full_path)) <= max_percentage_of_duplicate_nodes * len(full_path)`. -/
def dup_check_rejects (max_pct : ℚ) (path : List Node) : Prop :=
  (path.dedup.length : ℚ) ≤ max_pct * (path.length : ℚ)

instance (max_pct : ℚ) (path : List Node) :
    Decidable (dup_check_rejects max_pct path) :=
  inferInstanceAs (Decidable ((path.dedup.length : ℚ) ≤ max_pct * (path.length : ℚ)))

/-- The mutable locals of one `find_loops` run: the attempted-pair set
`random_nodes` (a list with membership, standing for the Python set) and
the accumulated `loops`. -/
structure SamplerState where
  random_nodes : List (Node × Node)
  loops : List (List Node × ℚ)

/-- One iteration of the attempt loop of `find_loops` (lines 26-59 of
`loops.py`), acting on the state, for the tape entry `r`. -/
def attempt_step (geo : Coord → Coord → ℚ) (G : Graph)
    (sp : Node → Node → Option (List Node)) (start_node : Node)
    (target_distance_km tolerance max_percentage_of_duplicate_nodes : ℚ)
    (st : SamplerState) (r : ℕ × ℕ) : SamplerState :=
  let node1 := (sampled_pair G r).1
  let node2 := (sampled_pair G r).2
  if (node1, node2) ∈ st.random_nodes then st
  else
    let st1 : SamplerState :=
      { st with random_nodes := (node2, node1) :: (node1, node2) :: st.random_nodes }
    match sp start_node node1, sp node1 node2, sp node2 start_node with
    | some path1, some path2, some path3 =>
        -- prevent the 3 points from being aligned
        if node1 ∈ path3 ∨ node2 ∈ path1 then st1
        else
          let fp := full_path_of_legs path1 path2 path3
          -- avoid paths that have too much back and forth nodes
          if dup_check_rejects max_percentage_of_duplicate_nodes fp then st1
          else
            let d := path_length_km geo G fp
            if |d - target_distance_km| ≤ target_distance_km * tolerance then
              { st1 with loops := st1.loops ++ [(fp, d)] }
            else st1
    | _, _, _ => st1

/-- The full `find_loops` run as a fold of `attempt_step` over the random
tape, returning the final state. -/
def find_loops_state (geo : Coord → Coord → ℚ) (G : Graph)
    (sp : Node → Node → Option (List Node)) (start_node : Node)
    (target_distance_km : ℚ) (tape : List (ℕ × ℕ))
    (tolerance max_percentage_of_duplicate_nodes : ℚ) : SamplerState :=
  tape.foldl
    (attempt_step geo G sp start_node target_distance_km tolerance
      max_percentage_of_duplicate_nodes)
    ⟨[], []⟩

/-- `find_loops(G, start_node, target_distance_km, num_attempts, tolerance,
max_percentage_of_duplicate_nodes)` from `loops.py`: the collected loops. -/
def find_loops (geo : Coord → Coord → ℚ) (G : Graph)
    (sp : Node → Node → Option (List Node)) (start_node : Node)
    (target_distance_km : ℚ) (tape : List (ℕ × ℕ))
    (tolerance max_percentage_of_duplicate_nodes : ℚ) : List (List Node × ℚ) :=
  (find_loops_state geo G sp start_node target_distance_km tape tolerance
    max_percentage_of_duplicate_nodes).loops

/-- The Jaccard similarity computed at lines 107-109 of `loops.py`:
`intersection / union if union else 0`. -/
def jaccard (s1 s2 : Finset Node) : ℚ :=
  if (s1 ∪ s2).card ≠ 0 then ((s1 ∩ s2).card : ℚ) / ((s1 ∪ s2).card : ℚ) else 0

/-- The inner loop of `filter_similar_loops` over the `seen` node sets
(lines 106-112 of `loops.py`; the early `break` is `List.any`). -/
def too_similar (nodes : Finset Node) (seen : List (Finset Node))
    (similarity_threshold : ℚ) : Bool :=
  seen.any fun prev => decide (jaccard nodes prev > similarity_threshold)

/-- The outer loop of `filter_similar_loops`, with the growing `seen`
accumulator made explicit. -/
def filter_similar_loops_aux (similarity_threshold : ℚ) :
    List (List Node × ℚ) → List (Finset Node) → List (List Node × ℚ)
  | [], _ => []
  | (path, dist) :: rest, seen =>
      if too_similar path.toFinset seen similarity_threshold then
        filter_similar_loops_aux similarity_threshold rest seen
      else
        (path, dist) ::
          filter_similar_loops_aux similarity_threshold rest (seen ++ [path.toFinset])

/-- `filter_similar_loops(loops, similarity_threshold)` from `loops.py`. -/
def filter_similar_loops (loops : List (List Node × ℚ))
    (similarity_threshold : ℚ) : List (List Node × ℚ) :=
  filter_similar_loops_aux similarity_threshold loops []

/-! Concrete instances used to exercise the definitions: a four-node
square graph with start node `0`, a degenerate geodesic distance that
weighs every edge `1`, a shortest-path oracle for the loop
`0 → 1 → 2 → 3 → 0`, and a tiny two-node graph with a pathless oracle. -/

/-- A distance function that gives every consecutive pair weight 1, so a
path's length is its edge count. -/
def geoOne : Coord → Coord → ℚ := fun _ _ => 1

/-- A four-node graph (coordinates irrelevant under `geoOne`). -/
def squareG : Graph := ⟨[0, 1, 2, 3], fun _ => (0, 0)⟩

/-- Shortest paths around the square for start node `0` and the waypoint
pair `(1, 2)`. -/
def spSquare : Node → Node → Option (List Node) := fun a b =>
  if a = 0 ∧ b = 1 then some [0, 1]
  else if a = 1 ∧ b = 2 then some [1, 2]
  else if a = 2 ∧ b = 0 then some [2, 3, 0]
  else none

/-- A two-node graph. -/
def twoG : Graph := ⟨[5, 7], fun _ => (0, 0)⟩

/-- An oracle that never finds a path. -/
def spNone : Node → Node → Option (List Node) := fun _ _ => none

/-! ### Theorems -/

theorem path_length_km_eq_sum (geo : Coord → Coord → ℚ) (G : Graph) :
    ∀ path : List Node,
      path_length_km geo G path =
        ((path.zip path.tail).map fun q => geo (G.coord q.1) (G.coord q.2)).sum
  | [] => by simp [path_length_km]
  | [_] => by simp [path_length_km]
  | a :: b :: rest => by
      have ih := path_length_km_eq_sum geo G (b :: rest)
      simp [path_length_km, ih]

/-- C9: `path_length_km(G, path)` equals the sum of the geodesic distances
between the coordinates of each consecutive node pair of `path`; in
particular it is `0` for a single-node path and the geodesic distance of
the two endpoints for a two-node path.  (The embedding is a pure function,
so it has no side effects on `G` by construction.) -/
theorem path_length_spec (geo : Coord → Coord → ℚ) (G : Graph) (a b : Node)
    (path : List Node) :
    path_length_km geo G [a] = 0 ∧
    path_length_km geo G [a, b] = geo (G.coord a) (G.coord b) ∧
    path_length_km geo G path =
      ((path.zip path.tail).map fun q => geo (G.coord q.1) (G.coord q.2)).sum :=
  ⟨rfl, by simp [path_length_km], path_length_km_eq_sum geo G path⟩

theorem length_eq_two_mul_dedup (l : List Node) (h : ∀ x ∈ l, l.count x = 2) :
    l.length = 2 * l.dedup.length := by
  have h1 : ∑ a ∈ l.toFinset, l.count a = l.length := by
    simp [← Multiset.toFinset_sum_count_eq (l : Multiset Node)]
  have h2 : ∑ a ∈ l.toFinset, l.count a = 2 * l.toFinset.card := by
    rw [Finset.sum_congr rfl fun x hx => h x (List.mem_toFinset.mp hx)]
    simp [mul_comm]
  rw [← h1, h2, List.card_toFinset]

/-- C5: the duplicate-node check of `find_loops` accepts exactly when
`distinctNodeCount > duplicateThreshold × totalNodeCount`; a path in which
every node occurs exactly twice is rejected at threshold `1/2`, and a
nonempty path with no repeated nodes passes the check for any
threshold `< 1`. -/
theorem dup_check_spec (max_pct : ℚ) (path : List Node) :
    (¬ dup_check_rejects max_pct path ↔
      max_pct * (path.length : ℚ) < (path.dedup.length : ℚ)) ∧
    ((∀ x ∈ path, path.count x = 2) → dup_check_rejects (1/2) path) ∧
    (path.Nodup → path ≠ [] → max_pct < 1 → ¬ dup_check_rejects max_pct path) := by
  refine ⟨not_le, fun h => ?_, fun hnd hne hlt => ?_⟩
  · have hlen : path.length = 2 * path.dedup.length :=
      length_eq_two_mul_dedup path h
    unfold dup_check_rejects
    rw [hlen]
    push_cast
    ring_nf
    exact le_refl _
  · unfold dup_check_rejects
    rw [hnd.dedup]
    have hpos : (0 : ℚ) < path.length := by
      exact_mod_cast List.length_pos.mpr hne
    nlinarith

theorem dup_check_spec_witness :
    dup_check_rejects (1/2) [1, 1, 2, 2] ∧ ¬ dup_check_rejects (1/2) [1, 2, 3] :=
  ⟨(dup_check_spec (1/2) [1, 1, 2, 2]).2.1 (by decide),
   (dup_check_spec (1/2) [1, 2, 3]).2.2 (by decide) (by decide) (by norm_num)⟩

theorem append_tail_of_last_head (xs ys : List Node) (j : Node)
    (hl : xs.getLast? = some j) (hh : ys.head? = some j) :
    xs ++ ys.tail = xs.dropLast ++ ys := by
  have hx : xs.dropLast ++ [j] = xs :=
    List.dropLast_append_getLast? j (Option.mem_def.mpr hl)
  have hy : ys = j :: ys.tail :=
    List.eq_cons_of_mem_head? (Option.mem_def.mpr hh)
  calc xs ++ ys.tail = (xs.dropLast ++ [j]) ++ ys.tail := by rw [hx]
    _ = xs.dropLast ++ (j :: ys.tail) := by simp
    _ = xs.dropLast ++ ys := by rw [← hy]

/-- C6: if each leg begins at its source and ends at its target, the full
path `path1 + path2[1:] + path3[1:]` built by `find_loops` is the
concatenation of the three legs with the shared junction node merged at
each boundary (it equals `dropLast path1 ++ dropLast path2 ++ path3`, so
each junction node appears once at its join), and its first and last
elements are the start node. -/
theorem full_path_spec (start node1 node2 : Node) (p1 p2 p3 : List Node)
    (h1h : p1.head? = some start) (h1l : p1.getLast? = some node1)
    (h2h : p2.head? = some node1) (h2l : p2.getLast? = some node2)
    (h3h : p3.head? = some node2) (h3l : p3.getLast? = some start) :
    full_path_of_legs p1 p2 p3 = p1.dropLast ++ p2.dropLast ++ p3 ∧
    (full_path_of_legs p1 p2 p3).head? = some start ∧
    (full_path_of_legs p1 p2 p3).getLast? = some start := by
  have h1 : p1 ≠ [] := by rintro rfl; simp at h1h
  have h3 : p3 ≠ [] := by rintro rfl; simp at h3h
  have heq : full_path_of_legs p1 p2 p3 = p1.dropLast ++ p2.dropLast ++ p3 := by
    unfold full_path_of_legs
    rw [append_tail_of_last_head p1 p2 node1 h1l h2h, List.append_assoc,
      append_tail_of_last_head p2 p3 node2 h2l h3h, ← List.append_assoc]
  refine ⟨heq, ?_, ?_⟩
  · unfold full_path_of_legs
    rw [List.append_assoc, List.head?_append_of_ne_nil p1 h1, h1h]
  · rw [heq, List.getLast?_append_of_ne_nil _ h3, h3l]

theorem full_path_spec_witness :
    full_path_of_legs [0, 1] [1, 2] [2, 3, 0] = [0] ++ [1] ++ [2, 3, 0] ∧
    (full_path_of_legs [0, 1] [1, 2] [2, 3, 0]).head? = some 0 ∧
    (full_path_of_legs [0, 1] [1, 2] [2, 3, 0]).getLast? = some 0 :=
  full_path_spec 0 1 2 [0, 1] [1, 2] [2, 3, 0] rfl rfl rfl rfl rfl rfl

theorem filter_similar_loops_aux_sublist (t : ℚ) :
    ∀ (xs : List (List Node × ℚ)) (seen : List (Finset Node)),
      (filter_similar_loops_aux t xs seen).Sublist xs
  | [], _ => by simp [filter_similar_loops_aux]
  | (p, d) :: rest, seen => by
      rw [filter_similar_loops_aux]
      split
      · exact (filter_similar_loops_aux_sublist t rest seen).cons (p, d)
      · exact (filter_similar_loops_aux_sublist t rest (seen ++ [p.toFinset])).cons₂ (p, d)

/-- C7: `filter_similar_loops` processes loops in input order; its step
discards a candidate exactly when some previously accepted node set has
Jaccard similarity strictly above the threshold (otherwise the candidate
is kept and its node set joins the pool); the Jaccard similarity of two
empty node sets is `0`; the first loop is never discarded; and the output
is a sublist of the input (surviving loops keep their order). -/
theorem filter_similar_spec :
    jaccard ∅ ∅ = 0 ∧
    (∀ (t : ℚ) (loops : List (List Node × ℚ)),
      (filter_similar_loops loops t).Sublist loops) ∧
    (∀ (t : ℚ) (p : List Node) (d : ℚ) (ls : List (List Node × ℚ)),
      (filter_similar_loops ((p, d) :: ls) t).head? = some (p, d)) ∧
    (∀ (t : ℚ) (p : List Node) (d : ℚ) (rest : List (List Node × ℚ))
        (seen : List (Finset Node)),
      filter_similar_loops_aux t ((p, d) :: rest) seen =
        if ∃ s ∈ seen, jaccard p.toFinset s > t then
          filter_similar_loops_aux t rest seen
        else
          (p, d) :: filter_similar_loops_aux t rest (seen ++ [p.toFinset])) := by
  refine ⟨by simp [jaccard], fun t loops => filter_similar_loops_aux_sublist t loops [],
    fun t p d ls => ?_, fun t p d rest seen => ?_⟩
  · simp [filter_similar_loops, filter_similar_loops_aux, too_similar]
  · rw [filter_similar_loops_aux]
    refine if_congr ?_ rfl rfl
    simp [too_similar, List.any_eq_true]

theorem filter_similar_loops_aux_idem (t : ℚ) :
    ∀ (xs : List (List Node × ℚ)) (seen : List (Finset Node)),
      filter_similar_loops_aux t (filter_similar_loops_aux t xs seen) seen =
        filter_similar_loops_aux t xs seen
  | [], seen => by simp [filter_similar_loops_aux]
  | (p, d) :: rest, seen => by
      rw [filter_similar_loops_aux]
      by_cases h : too_similar p.toFinset seen t
      · rw [if_pos h]
        exact filter_similar_loops_aux_idem t rest seen
      · rw [if_neg h, filter_similar_loops_aux, if_neg h]
        rw [filter_similar_loops_aux_idem t rest (seen ++ [p.toFinset])]

/-- C8: `filter_similar_loops` is idempotent: applying it twice with the
same threshold yields the same list as applying it once. -/
theorem filter_similar_idem (loops : List (List Node × ℚ)) (t : ℚ) :
    filter_similar_loops (filter_similar_loops loops t) t =
      filter_similar_loops loops t :=
  filter_similar_loops_aux_idem t loops []

section Sampler

variable (geo : Coord → Coord → ℚ) (G : Graph)
variable (sp : Node → Node → Option (List Node))
variable (start_node : Node) (target tol maxd : ℚ)

theorem attempt_step_skip (st : SamplerState) (r : ℕ × ℕ)
    (h : ((sampled_pair G r).1, (sampled_pair G r).2) ∈ st.random_nodes) :
    attempt_step geo G sp start_node target tol maxd st r = st := by
  unfold attempt_step
  simp [h]

theorem attempt_step_fresh_random (st : SamplerState) (r : ℕ × ℕ)
    (h : ((sampled_pair G r).1, (sampled_pair G r).2) ∉ st.random_nodes) :
    (attempt_step geo G sp start_node target tol maxd st r).random_nodes =
      ((sampled_pair G r).2, (sampled_pair G r).1) ::
        ((sampled_pair G r).1, (sampled_pair G r).2) :: st.random_nodes := by
  unfold attempt_step
  simp only [h, if_false, ite_false]
  rcases sp start_node (sampled_pair G r).1 with _ | p1 <;>
    rcases sp (sampled_pair G r).1 (sampled_pair G r).2 with _ | p2 <;>
    rcases sp (sampled_pair G r).2 start_node with _ | p3 <;>
    first
      | rfl
      | (dsimp only; split_ifs <;> rfl)

theorem attempt_step_loops (st : SamplerState) (r : ℕ × ℕ) :
    (attempt_step geo G sp start_node target tol maxd st r).loops = st.loops ∨
    ∃ fp, (attempt_step geo G sp start_node target tol maxd st r).loops =
        st.loops ++ [(fp, path_length_km geo G fp)] ∧
      |path_length_km geo G fp - target| ≤ target * tol := by
  unfold attempt_step
  by_cases h : ((sampled_pair G r).1, (sampled_pair G r).2) ∈ st.random_nodes
  · left; simp [h]
  · simp only [h, if_false, ite_false]
    rcases sp start_node (sampled_pair G r).1 with _ | p1 <;>
      rcases sp (sampled_pair G r).1 (sampled_pair G r).2 with _ | p2 <;>
      rcases sp (sampled_pair G r).2 start_node with _ | p3
    all_goals try (left; rfl)
    dsimp only
    split_ifs with ha hd ht
    · left; rfl
    · left; rfl
    · right
      exact ⟨full_path_of_legs p1 p2 p3, rfl, ht⟩
    · left; rfl

theorem find_loops_state_loops_spec :
    ∀ (tape : List (ℕ × ℕ)) (st : SamplerState),
      (∀ p d, (p, d) ∈ st.loops →
        d = path_length_km geo G p ∧ |d - target| ≤ target * tol) →
      ∀ p d,
        (p, d) ∈ (tape.foldl
          (attempt_step geo G sp start_node target tol maxd) st).loops →
        d = path_length_km geo G p ∧ |d - target| ≤ target * tol
  | [], _, h => h
  | r :: tape, st, h => by
      rw [List.foldl_cons]
      apply find_loops_state_loops_spec tape
      intro p d hm
      rcases attempt_step_loops geo G sp start_node target tol maxd st r with
        heq | ⟨fp, heq, hle⟩
      · exact h p d (heq ▸ hm)
      · rw [heq, List.mem_append] at hm
        rcases hm with hm | hm
        · exact h p d hm
        · simp only [List.mem_singleton, Prod.mk.injEq] at hm
          obtain ⟨rfl, rfl⟩ := hm
          exact ⟨rfl, hle⟩

/-- C1: every loop `(path, d)` in the list returned by `find_loops` stores
as `d` exactly `path_length_km` of its path, and `d` is within
`target × tolerance` of the target distance. -/
theorem find_loops_spec (tape : List (ℕ × ℕ)) :
    ∀ p d, (p, d) ∈ find_loops geo G sp start_node target tape tol maxd →
      d = path_length_km geo G p ∧ |d - target| ≤ target * tol :=
  find_loops_state_loops_spec geo G sp start_node target tol maxd tape ⟨[], []⟩
    (by intro p d h; simp at h)

theorem attempt_step_sym (st : SamplerState) (r : ℕ × ℕ)
    (h : ∀ a b : Node, (a, b) ∈ st.random_nodes → (b, a) ∈ st.random_nodes) :
    ∀ a b : Node,
      (a, b) ∈ (attempt_step geo G sp start_node target tol maxd st r).random_nodes →
      (b, a) ∈ (attempt_step geo G sp start_node target tol maxd st r).random_nodes := by
  by_cases hm : ((sampled_pair G r).1, (sampled_pair G r).2) ∈ st.random_nodes
  · rw [attempt_step_skip geo G sp start_node target tol maxd st r hm]
    exact h
  · rw [attempt_step_fresh_random geo G sp start_node target tol maxd st r hm]
    intro a b hab
    simp only [List.mem_cons, Prod.mk.injEq] at hab ⊢
    rcases hab with ⟨rfl, rfl⟩ | ⟨rfl, rfl⟩ | hab
    · tauto
    · tauto
    · exact Or.inr (Or.inr (h a b hab))

theorem attempt_step_random_mono (st : SamplerState) (r : ℕ × ℕ) :
    st.random_nodes ⊆
      (attempt_step geo G sp start_node target tol maxd st r).random_nodes := by
  by_cases hm : ((sampled_pair G r).1, (sampled_pair G r).2) ∈ st.random_nodes
  · rw [attempt_step_skip geo G sp start_node target tol maxd st r hm]
    exact fun x hx => hx
  · rw [attempt_step_fresh_random geo G sp start_node target tol maxd st r hm]
    exact fun x hx => List.mem_cons_of_mem _ (List.mem_cons_of_mem _ hx)

theorem foldl_random_sym :
    ∀ (tape : List (ℕ × ℕ)) (st : SamplerState),
      (∀ a b : Node, (a, b) ∈ st.random_nodes → (b, a) ∈ st.random_nodes) →
      ∀ a b : Node,
        (a, b) ∈ (tape.foldl
          (attempt_step geo G sp start_node target tol maxd) st).random_nodes →
        (b, a) ∈ (tape.foldl
          (attempt_step geo G sp start_node target tol maxd) st).random_nodes
  | [], _, h => h
  | r :: tape, st, h => by
      rw [List.foldl_cons]
      exact foldl_random_sym tape _
        (attempt_step_sym geo G sp start_node target tol maxd st r h)

/-- C4: the attempted-pair key is symmetric — the recorded set of a
`find_loops` run contains `(a, b)` exactly when it contains `(b, a)` —
an attempt whose sampled pair is already recorded leaves the state
untouched (it stops at the skip check, with no error), the recorded set
only grows, and a fresh attempt records both orders of its pair. -/
theorem attempt_key_spec :
    (∀ (tape : List (ℕ × ℕ)) (a b : Node),
      (a, b) ∈ (find_loops_state geo G sp start_node target tape tol maxd).random_nodes ↔
      (b, a) ∈ (find_loops_state geo G sp start_node target tape tol maxd).random_nodes) ∧
    (∀ (st : SamplerState) (r : ℕ × ℕ),
      ((sampled_pair G r).1, (sampled_pair G r).2) ∈ st.random_nodes →
      attempt_step geo G sp start_node target tol maxd st r = st) ∧
    (∀ (st : SamplerState) (r : ℕ × ℕ),
      st.random_nodes ⊆
        (attempt_step geo G sp start_node target tol maxd st r).random_nodes) ∧
    (∀ (st : SamplerState) (r : ℕ × ℕ),
      ((sampled_pair G r).1, (sampled_pair G r).2) ∉ st.random_nodes →
      (attempt_step geo G sp start_node target tol maxd st r).random_nodes =
        ((sampled_pair G r).2, (sampled_pair G r).1) ::
          ((sampled_pair G r).1, (sampled_pair G r).2) :: st.random_nodes) := by
  refine ⟨fun tape a b => ?_, attempt_step_skip geo G sp start_node target tol maxd,
    attempt_step_random_mono geo G sp start_node target tol maxd,
    attempt_step_fresh_random geo G sp start_node target tol maxd⟩
  have hsym := foldl_random_sym geo G sp start_node target tol maxd tape
    ⟨[], []⟩ (by intro a b h; simp at h)
  exact ⟨hsym a b, hsym b a⟩

/-- C10: assuming every oracle path contains its source and its target,
an attempt whose sampled pair is degenerate (`node1 = node2`,
`node1 = start_node`, or `node2 = start_node`) never adds a loop — it is
stopped by the skip check or by the alignment check
`node1 ∈ path3 ∨ node2 ∈ path1`. -/
theorem degenerate_pair_spec
    (hsp : ∀ a b p, sp a b = some p → a ∈ p ∧ b ∈ p)
    (st : SamplerState) (r : ℕ × ℕ)
    (hdeg : (sampled_pair G r).1 = (sampled_pair G r).2 ∨
      (sampled_pair G r).1 = start_node ∨ (sampled_pair G r).2 = start_node) :
    (attempt_step geo G sp start_node target tol maxd st r).loops = st.loops := by
  by_cases hm : ((sampled_pair G r).1, (sampled_pair G r).2) ∈ st.random_nodes
  · rw [attempt_step_skip geo G sp start_node target tol maxd st r hm]
  · unfold attempt_step
    simp only [hm, if_false, ite_false]
    rcases h1 : sp start_node (sampled_pair G r).1 with _ | p1 <;>
      rcases h2 : sp (sampled_pair G r).1 (sampled_pair G r).2 with _ | p2 <;>
      rcases h3 : sp (sampled_pair G r).2 start_node with _ | p3
    all_goals try rfl
    have align : (sampled_pair G r).1 ∈ p3 ∨ (sampled_pair G r).2 ∈ p1 := by
      rcases hdeg with hd | hd | hd
      · exact Or.inl (hd ▸ (hsp _ _ _ h3).1)
      · exact Or.inl (hd ▸ (hsp _ _ _ h3).2)
      · exact Or.inr (hd ▸ (hsp _ _ _ h1).1)
    dsimp only
    rw [if_pos align]

theorem find_loops_state_loops_nil (htarget : 0 < target) (htol : tol < 0) :
    ∀ (tape : List (ℕ × ℕ)) (st : SamplerState), st.loops = [] →
      (tape.foldl (attempt_step geo G sp start_node target tol maxd) st).loops = []
  | [], _, h => h
  | r :: tape, st, h => by
      rw [List.foldl_cons]
      apply find_loops_state_loops_nil htarget htol tape
      rcases attempt_step_loops geo G sp start_node target tol maxd st r with
        heq | ⟨fp, heq, hle⟩
      · rw [heq, h]
      · exfalso
        have h1 : (0 : ℚ) ≤ |path_length_km geo G fp - target| := abs_nonneg _
        have h2 : target * tol < 0 := mul_neg_of_pos_of_neg htarget htol
        linarith

/-- C3 (amended): `find_loops` performs no configuration validation and
never fails fast; an invalid configuration is processed like any other.
In particular, with a positive target and a negative tolerance the
acceptance test is unsatisfiable, so the run completes the whole tape
and returns the empty list instead of raising an error. -/
theorem no_validation_spec (htarget : 0 < target) (htol : tol < 0)
    (tape : List (ℕ × ℕ)) :
    find_loops geo G sp start_node target tape tol maxd = [] :=
  find_loops_state_loops_nil geo G sp start_node target tol maxd htarget htol
    tape ⟨[], []⟩ rfl

end Sampler

/-- C2 (amended): each of the two waypoint draws of an attempt is an
element of the graph's node list (whenever the node list is nonempty);
the draws are independent and carry no distinctness guarantee. -/
theorem sampled_pair_mem (G : Graph) (r : ℕ × ℕ) (h : G.nodes ≠ []) :
    (sampled_pair G r).1 ∈ G.nodes ∧ (sampled_pair G r).2 ∈ G.nodes := by
  have hlen : 0 < G.nodes.length := List.length_pos.mpr h
  have hmem : ∀ i : ℕ, sample G.nodes i ∈ G.nodes := by
    intro i
    unfold sample
    rw [List.getD_eq_getElem _ _ (Nat.mod_lt i hlen)]
    exact List.getElem_mem _
  exact ⟨hmem r.1, hmem r.2⟩

theorem sampled_pair_mem_witness :
    (sampled_pair twoG (3, 4)).1 ∈ twoG.nodes ∧
      (sampled_pair twoG (3, 4)).2 ∈ twoG.nodes :=
  sampled_pair_mem twoG (3, 4) (by decide)

/-- C2 counterexample: an attempt of `find_loops` can draw the same node
twice — on the two-node graph the tape entry `(0, 0)` samples the pair
`(5, 5)` and the run records it (both orders coincide), so the drawn
waypoints are not always distinct. -/
theorem distinct_draw_counterexample :
    (sampled_pair twoG (0, 0)).1 = (sampled_pair twoG (0, 0)).2 ∧
    (find_loops_state geoOne twoG spNone 9 1 [(0, 0)] 1 (1/2)).random_nodes =
      [(5, 5), (5, 5)] :=
  ⟨rfl, rfl⟩

/-- C3 counterexample: called with an invalid configuration
(`tolerance = -1 ≤ 0` and duplicate threshold `2 ≥ 1`), `find_loops` does
not fail before sampling: the run draws and records the random pair
`(1, 2)` (so sampling and oracle calls do begin) and returns an ordinary
empty list, with no error of any kind. -/
theorem fail_fast_counterexample :
    (find_loops_state geoOne squareG spSquare 0 4 [(1, 2)] (-1) 2).random_nodes =
      [(2, 1), (1, 2)] ∧
    find_loops geoOne squareG spSquare 0 4 [(1, 2)] (-1) 2 = [] := by
  norm_num [find_loops, find_loops_state, attempt_step, sampled_pair, sample,
    full_path_of_legs, dup_check_rejects, path_length_km, spSquare, squareG, geoOne,
    List.dedup_cons_of_mem, List.dedup_cons_of_not_mem]

theorem no_validation_spec_witness :
    find_loops geoOne squareG spSquare 0 4 [(1, 2)] (-1) (1/2) = [] :=
  no_validation_spec geoOne squareG spSquare 0 4 (-1) (1/2) (by norm_num)
    (by norm_num) [(1, 2)]

theorem find_loops_spec_witness :
    (4 : ℚ) = path_length_km geoOne squareG [0, 1, 2, 3, 0] ∧
      |(4 : ℚ) - 4| ≤ 4 * (1/10) :=
  find_loops_spec geoOne squareG spSquare 0 4 (1/10) (1/2) [(1, 2)] [0, 1, 2, 3, 0] 4
    (by norm_num [find_loops, find_loops_state, attempt_step, sampled_pair, sample,
      full_path_of_legs, dup_check_rejects, path_length_km, spSquare, squareG, geoOne,
      List.dedup_cons_of_mem, List.dedup_cons_of_not_mem])

theorem attempt_key_spec_witness :
    attempt_step geoOne twoG spNone 9 1 1 (1/2) ⟨[(5, 5)], []⟩ (0, 0) =
      (⟨[(5, 5)], []⟩ : SamplerState) :=
  (attempt_key_spec geoOne twoG spNone 9 1 1 (1/2)).2.1 ⟨[(5, 5)], []⟩ (0, 0)
    (by decide)

theorem spSquare_endpoints : ∀ a b p, spSquare a b = some p → a ∈ p ∧ b ∈ p := by
  intro a b p h
  unfold spSquare at h
  split_ifs at h with h1 h2 h3
  · obtain ⟨rfl, rfl⟩ := h1
    simp only [Option.some.injEq] at h
    subst h
    decide
  · obtain ⟨rfl, rfl⟩ := h2
    simp only [Option.some.injEq] at h
    subst h
    decide
  · obtain ⟨rfl, rfl⟩ := h3
    simp only [Option.some.injEq] at h
    subst h
    decide

theorem degenerate_pair_spec_witness :
    (attempt_step geoOne squareG spSquare 0 4 1 (1/2) ⟨[], []⟩ (1, 1)).loops = [] :=
  degenerate_pair_spec geoOne squareG spSquare 0 4 1 (1/2) spSquare_endpoints
    ⟨[], []⟩ (1, 1) (Or.inl (by decide))

end RunningPaths
